import Mathlib

/-!
# Unreal View Dataset Generator — verification of spec claims

Shallow embedding of the trajectory / keyframe / serialization logic of the
`CameraDatasetGen` Unreal plugin, together with proofs settling the frozen
claims about its natural-language specification.

Floating-point values (`float` / `double` in the C++ source) are modelled as
exact rationals `ℚ` for the arithmetic-accumulation code, and as reals `ℝ`
for the trigonometric FOV/focal-length formulas.  Machine integers are
modelled as `ℤ` / `ℕ`.  Unreal `TObjectPtr` references that may be null are
modelled as `Option`.
-/

namespace CDG

/-- Unreal's `KINDA_SMALL_NUMBER` constant (`1.e-4f`), used as the
"negligible epsilon" threshold for stay times. -/
def kindaSmallNumber : ℚ := 1 / 10000

/-- `ACDGKeyframe` — the fields relevant to ordering and timing
(`OrderInTrajectory`, `TimeToCurrentFrame`, `TimeAtCurrentFrame`).
An `id` field stands for the actor's identity (pointer identity in C++). -/
structure Keyframe where
  id : ℕ
  orderInTrajectory : ℤ
  timeToCurrentFrame : ℚ
  timeAtCurrentFrame : ℚ
  deriving Repr, DecidableEq

/-- `ACDGTrajectory` — its `Keyframes` array of possibly-null keyframe
references. -/
structure Trajectory where
  keyframes : List (Option Keyframe)
  deriving Repr, DecidableEq

/-- Insert a keyframe into a list sorted ascending by `OrderInTrajectory`
(in front of the first strictly greater element).  Models one step of the
comparison sort `TArray::Sort` performs with the predicate
`A.OrderInTrajectory < B.OrderInTrajectory`. -/
def insertByOrder (k : Keyframe) : List Keyframe → List Keyframe
  | [] => [k]
  | x :: xs =>
    if k.orderInTrajectory < x.orderInTrajectory then k :: x :: xs
    else x :: insertByOrder k xs

/-- Sort keyframes ascending by `OrderInTrajectory` (the predicate used by
both `ACDGTrajectory::SortKeyframes` and `GetSortedKeyframes`). -/
def sortByOrder : List Keyframe → List Keyframe
  | [] => []
  | k :: rest => insertByOrder k (sortByOrder rest)

/-- `ACDGTrajectory::GetSortedKeyframes`: copy the non-null keyframe
references, then sort them ascending by `OrderInTrajectory`. -/
def getSortedKeyframes (t : Trajectory) : List Keyframe :=
  sortByOrder (t.keyframes.filterMap id)

/-- The accumulation loop inside `ACDGTrajectory::GetTrajectoryDuration`:
index `i = 0` contributes only `TimeAtCurrentFrame`; every later index
contributes `TimeToCurrentFrame + TimeAtCurrentFrame`.  (The loop's
null-check never fires because `GetSortedKeyframes` already filtered
null references.) -/
def durationLoop : ℕ → List Keyframe → ℚ
  | _, [] => 0
  | i, k :: rest =>
    (if i = 0 then k.timeAtCurrentFrame
     else k.timeToCurrentFrame + k.timeAtCurrentFrame) + durationLoop (i + 1) rest

/-- `ACDGTrajectory::GetTrajectoryDuration`. -/
def getTrajectoryDuration (t : Trajectory) : ℚ :=
  if t.keyframes = [] then 0
  else durationLoop 0 (getSortedKeyframes t)

/-- Concrete 3-keyframe trajectory from the spec's duration example:
`TimeToCurrentFrame = [-, 2.0, 1.5]`, `TimeAtCurrentFrame = [0.5, 0.0, 1.0]`. -/
def exampleTrajectory : Trajectory :=
  { keyframes :=
      [ some ⟨0, 0, 0, 1/2⟩
      , some ⟨1, 1, 2, 0⟩
      , some ⟨2, 2, 3/2, 1⟩ ] }

lemma exampleTrajectory_duration : getTrajectoryDuration exampleTrajectory = 5 := by
  norm_num [getTrajectoryDuration, getSortedKeyframes, sortByOrder, insertByOrder,
    exampleTrajectory, durationLoop]
  simp

lemma durationLoop_tail_eq_sum (l : List Keyframe) (i : ℕ) :
    durationLoop (i + 1) l
      = (l.map fun j => j.timeToCurrentFrame + j.timeAtCurrentFrame).sum := by
  induction l generalizing i with
  | nil => rfl
  | cons k rest ih =>
      simp only [durationLoop, Nat.succ_ne_zero, reduceIte, List.map_cons, List.sum_cons]
      rw [ih (i + 1)]

/-- **C1.** `GetTrajectoryDuration()` returns, over the keyframes sorted
ascending by `OrderInTrajectory`, the first keyframe's `TimeAtCurrentFrame`
plus, for every subsequent keyframe, `TimeToCurrentFrame + TimeAtCurrentFrame`;
a null keyframe reference contributes nothing; zero keyframes give duration 0;
and the spec's 3-keyframe example has duration 5.0. -/
theorem getTrajectoryDuration_spec :
    (∀ t : Trajectory,
        getTrajectoryDuration t =
          match getSortedKeyframes t with
          | [] => 0
          | first :: rest =>
              first.timeAtCurrentFrame +
                (rest.map fun j => j.timeToCurrentFrame + j.timeAtCurrentFrame).sum)
    ∧ (∀ l1 l2 : List (Option Keyframe),
        getTrajectoryDuration { keyframes := l1 ++ none :: l2 }
          = getTrajectoryDuration { keyframes := l1 ++ l2 })
    ∧ getTrajectoryDuration { keyframes := [] } = 0
    ∧ getTrajectoryDuration exampleTrajectory = 5 := by
  refine ⟨?_, ?_, ?_, ?_⟩
  · intro t
    unfold getTrajectoryDuration
    by_cases h : t.keyframes = []
    · simp [h, getSortedKeyframes, sortByOrder]
    · rw [if_neg h]
      cases hs : getSortedKeyframes t with
      | nil => simp [durationLoop]
      | cons first rest =>
          simp only [durationLoop, reduceIte]
          rw [durationLoop_tail_eq_sum rest 0]
  · intro l1 l2
    unfold getTrajectoryDuration getSortedKeyframes
    by_cases h : l1 ++ l2 = ([] : List (Option Keyframe))
    · rcases List.append_eq_nil.mp h with ⟨h1, h2⟩
      subst h1; subst h2
      simp [sortByOrder, durationLoop]
    · have hne : l1 ++ none :: l2 ≠ ([] : List (Option Keyframe)) := by
        intro hcon
        rcases List.append_eq_nil.mp hcon with ⟨-, h2⟩
        exact List.cons_ne_nil _ _ h2
      rw [if_neg hne, if_neg h]
      simp [List.filterMap_append, List.filterMap_cons]
  · rfl
  · exact exampleTrajectory_duration

/-- The `CurrentTimeSeconds` accumulation of the keyframe-serialization loop
in `TrajectorySL::SaveAllTrajectoriesAsString`: for index `k > 0` the travel
time is added before emitting; the stay time is added after emitting only when
it exceeds `KINDA_SMALL_NUMBER`.  Returns the emitted `TimeInTrajectory`
values and the final running time. -/
def serializeLoop : ℕ → ℚ → List Keyframe → List ℚ × ℚ
  | _, cur, [] => ([], cur)
  | k, cur, kf :: rest =>
    let cur1 := if k > 0 then cur + kf.timeToCurrentFrame else cur
    let cur2 := if kf.timeAtCurrentFrame > kindaSmallNumber
                then cur1 + kf.timeAtCurrentFrame else cur1
    let r := serializeLoop (k + 1) cur2 rest
    (cur1 :: r.1, r.2)

/-- Final `CurrentTimeSeconds` after the serialization loop has processed all
sorted keyframes of a trajectory. -/
def serializedFinalTime (t : Trajectory) : ℚ :=
  (serializeLoop 0 0 (getSortedKeyframes t)).2

lemma serializeLoop_final_eq (l : List Keyframe) :
    ∀ (k : ℕ) (cur : ℚ),
      (∀ kf ∈ l, kf.timeAtCurrentFrame = 0 ∨ kf.timeAtCurrentFrame > kindaSmallNumber) →
      (serializeLoop k cur l).2 = cur + durationLoop k l := by
  induction l with
  | nil => intro k cur _; simp [serializeLoop, durationLoop]
  | cons kf rest ih =>
      intro k cur hall
      have hkf := hall kf (List.mem_cons_self kf rest)
      have hrest : ∀ j ∈ rest, j.timeAtCurrentFrame = 0 ∨ j.timeAtCurrentFrame > kindaSmallNumber :=
        fun j hj => hall j (List.mem_cons_of_mem kf hj)
      simp only [serializeLoop, durationLoop]
      rw [ih (k + 1) _ hrest]
      rcases Nat.eq_zero_or_pos k with hk | hk
      · subst hk
        rcases hkf with h0 | hgt
        · simp [h0, kindaSmallNumber]
        · rw [if_pos hgt]
          simp only [gt_iff_lt, Nat.lt_irrefl, reduceIte, if_false, if_true]
          ring
      · rw [if_pos hk, if_neg (Nat.pos_iff_ne_zero.mp hk)]
        rcases hkf with h0 | hgt
        · simp [h0, kindaSmallNumber]
          ring
        · rw [if_pos hgt]
          ring

/-- The counterexample trajectory for C3: a single keyframe whose stay time
equals `KINDA_SMALL_NUMBER` (`1e-4`), which is non-negative but not *strictly
above* the epsilon, so the serializer skips it while the duration counts it. -/
def tinyStayTrajectory : Trajectory :=
  { keyframes := [some ⟨0, 0, 0, 1/10000⟩] }

/-- **C3 (counterexample).** The claim that the serializer's running
`TimeInTrajectory` accumulation always reproduces `GetTrajectoryDuration()`
for all non-negative times is false: a single keyframe with
`TimeAtCurrentFrame = 1e-4 = KINDA_SMALL_NUMBER` (and `TimeToCurrentFrame = 0`,
both non-negative) yields a serialized running time of `0` while the duration
is `1e-4`, because the serializer only adds stay times *strictly above* the
epsilon whereas the duration adds every stay time. -/
theorem serializedFinalTime_ne_duration :
    (∀ kf ∈ tinyStayTrajectory.keyframes.filterMap id,
        0 ≤ kf.timeToCurrentFrame ∧ 0 ≤ kf.timeAtCurrentFrame)
    ∧ serializedFinalTime tinyStayTrajectory = 0
    ∧ getTrajectoryDuration tinyStayTrajectory = 1/10000
    ∧ serializedFinalTime tinyStayTrajectory ≠ getTrajectoryDuration tinyStayTrajectory := by
  refine ⟨?_, ?_, ?_, ?_⟩
  · intro kf hkf
    simp only [tinyStayTrajectory, List.filterMap_cons, id, List.filterMap_nil] at hkf
    simp only [List.mem_cons, List.not_mem_nil, or_false] at hkf
    subst hkf
    norm_num
  · norm_num [serializedFinalTime, getSortedKeyframes, tinyStayTrajectory, sortByOrder,
      insertByOrder, serializeLoop, kindaSmallNumber]
  · norm_num [getTrajectoryDuration, getSortedKeyframes, tinyStayTrajectory, sortByOrder,
      insertByOrder, durationLoop]
  · norm_num [serializedFinalTime, getTrajectoryDuration, getSortedKeyframes,
      tinyStayTrajectory, sortByOrder, insertByOrder, serializeLoop, durationLoop,
      kindaSmallNumber]

/-- **C3 (amended).** The serializer's running `TimeInTrajectory` accumulation
ends at exactly `GetTrajectoryDuration()` provided every keyframe's
`TimeAtCurrentFrame` is either zero or strictly greater than
`KINDA_SMALL_NUMBER` (`1e-4`); in particular for the spec's example
trajectory the final running time is `5`. -/
theorem serializedFinalTime_eq_duration
    (t : Trajectory)
    (h : ∀ kf ∈ getSortedKeyframes t,
        kf.timeAtCurrentFrame = 0 ∨ kf.timeAtCurrentFrame > kindaSmallNumber) :
    serializedFinalTime t = getTrajectoryDuration t := by
  unfold serializedFinalTime getTrajectoryDuration
  by_cases hk : t.keyframes = []
  · have : getSortedKeyframes t = [] := by
      simp [getSortedKeyframes, hk, sortByOrder]
    rw [this, if_pos hk]
    simp [serializeLoop]
  · rw [if_neg hk, serializeLoop_final_eq _ 0 0 h, zero_add]

/-- Witness for C3's amended theorem: the example trajectory satisfies the
stay-time side condition and serializes to running time 5. -/
theorem serializedFinalTime_eq_duration_witness :
    serializedFinalTime exampleTrajectory = getTrajectoryDuration exampleTrajectory :=
  serializedFinalTime_eq_duration exampleTrajectory (by
    intro kf hkf
    simp only [getSortedKeyframes, exampleTrajectory, List.filterMap_cons, id,
      List.filterMap_nil, sortByOrder, insertByOrder] at hkf
    norm_num at hkf
    rcases hkf with h | h | h <;> subst h <;> norm_num [kindaSmallNumber])

/-- `FMath::RoundToInt` (generic implementation `FloorToInt(F + 0.5)`),
modelled on exact rationals. -/
def roundToInt (q : ℚ) : ℤ := ⌊q + 1/2⌋

/-- One entry of the `Frames` JSON array produced by
`TrajectorySL::Internal::GenerateFrameData`.  The geometric payload
(interpolated transform, lens values) is omitted: it depends on engine spline
sampling outside this development's claims; the timing and keyframe-blend
fields are modelled in full. -/
structure FrameEntry where
  frameIndex : ℕ
  time : ℚ
  keyframeIndexA : ℕ
  keyframeIndexB : ℕ
  blendAlpha : ℚ
  deriving Repr, DecidableEq

/-- The `KeyframeTimes` accumulation loop of `GenerateFrameData` for indices
`k ≥ 1`: add the travel time, record the arrival time, then add the stay time
when it exceeds `KINDA_SMALL_NUMBER`. -/
def keyframeTimesLoop (cur : ℚ) : List Keyframe → List ℚ
  | [] => []
  | kf :: rest =>
    let cur1 := cur + kf.timeToCurrentFrame
    let cur2 := if kf.timeAtCurrentFrame > kindaSmallNumber
                then cur1 + kf.timeAtCurrentFrame else cur1
    cur1 :: keyframeTimesLoop cur2 rest

/-- The full `KeyframeTimes` array: `0` for the first sorted keyframe, then the
accumulated arrival times of the rest. -/
def buildKeyframeTimes (sorted : List Keyframe) : List ℚ :=
  0 :: keyframeTimesLoop 0 (sorted.drop 1)

/-- The interval-search loop of `GenerateFrameData`: find the first adjacent
pair of keyframe times bracketing the frame time and compute the blend alpha
(zero when the pair spans no more than `KINDA_SMALL_NUMBER`). -/
def intervalSearch : ℕ → List ℚ → ℚ → Option (ℕ × ℕ × ℚ)
  | _, [], _ => none
  | _, [_], _ => none
  | k, a :: b :: rest, ft =>
    if ft ≥ a ∧ ft ≤ b then
      some (k, k + 1, if b - a > kindaSmallNumber then (ft - a) / (b - a) else 0)
    else intervalSearch (k + 1) (b :: rest) ft

/-- Build the frame entry for frame index `i`: its time is `i * DeltaTime`; its
blend indices come from the interval search, overridden to the last keyframe
when the frame time lies beyond the last keyframe time. -/
def mkFrame (numKeyframes : ℕ) (times : List ℚ) (deltaTime : ℚ) (i : ℕ) : FrameEntry :=
  let ft : ℚ := i * deltaTime
  let found :=
    match intervalSearch 0 times ft with
    | some r => r
    | none => (0, 1, 0)
  let final :=
    if ft > times.getLastD 0
    then (numKeyframes - 1, numKeyframes - 1, (0 : ℚ))
    else found
  { frameIndex := i, time := ft
    keyframeIndexA := final.1, keyframeIndexB := final.2.1, blendAlpha := final.2.2 }

/-- `TrajectorySL::Internal::GenerateFrameData`: returns empty for a null
trajectory or non-positive FPS, or fewer than 2 sorted keyframes; otherwise
emits `TotalFrames = max(1, RoundToInt(Duration * FPS))` frames at times
`i * (Duration / TotalFrames)`. -/
def generateFrameData (t : Option Trajectory) (fps : ℤ) : List FrameEntry :=
  match t with
  | none => []
  | some traj =>
    if fps ≤ 0 then []
    else
      let sorted := getSortedKeyframes traj
      if sorted.length < 2 then []
      else
        let duration := getTrajectoryDuration traj
        let totalFrames : ℤ := max 1 (roundToInt (duration * fps))
        let deltaTime : ℚ := duration / (totalFrames : ℚ)
        let times := buildKeyframeTimes sorted
        (List.range totalFrames.toNat).map (mkFrame sorted.length times deltaTime)

/-- **C2.** For a trajectory with at least 2 sorted non-null keyframes and
`FPS > 0`, `GenerateFrameData` emits exactly
`TotalFrames = max(1, round(Duration * FPS))` frames, frame `i` carrying time
`i * (Duration / TotalFrames)`; for the spec's 5-second example trajectory at
30 FPS that is exactly 150 frames, frame 0 at time `0` and frame 149 at time
`149 * (5 / 150)`. -/
theorem generateFrameData_spec :
    (∀ (traj : Trajectory) (fps : ℤ),
        2 ≤ (getSortedKeyframes traj).length → 0 < fps →
        (generateFrameData (some traj) fps).length
            = (max 1 (roundToInt (getTrajectoryDuration traj * fps))).toNat
        ∧ ∀ (i : ℕ) (h : i < (generateFrameData (some traj) fps).length),
            ((generateFrameData (some traj) fps)[i]).time
              = i * (getTrajectoryDuration traj
                  / ((max 1 (roundToInt (getTrajectoryDuration traj * fps)) : ℤ) : ℚ)))
    ∧ (generateFrameData (some exampleTrajectory) 30).length = 150
    ∧ (generateFrameData (some exampleTrajectory) 30)[0]?.map FrameEntry.time = some 0
    ∧ (generateFrameData (some exampleTrajectory) 30)[149]?.map FrameEntry.time
        = some (149 * (5 / 150)) := by
  have hgen : ∀ (traj : Trajectory) (fps : ℤ),
      2 ≤ (getSortedKeyframes traj).length → 0 < fps →
      (generateFrameData (some traj) fps).length
          = (max 1 (roundToInt (getTrajectoryDuration traj * fps))).toNat
      ∧ ∀ (i : ℕ) (h : i < (generateFrameData (some traj) fps).length),
          ((generateFrameData (some traj) fps)[i]).time
            = i * (getTrajectoryDuration traj
                / ((max 1 (roundToInt (getTrajectoryDuration traj * fps)) : ℤ) : ℚ)) := by
    intro traj fps h2 hfps
    have hnotle : ¬ fps ≤ 0 := not_le.mpr hfps
    have hnotlt : ¬ (getSortedKeyframes traj).length < 2 := not_lt.mpr h2
    constructor
    · simp [generateFrameData, hnotle, hnotlt]
    · intro i hi
      simp only [generateFrameData, hnotle, hnotlt, if_false, reduceIte] at hi ⊢
      simp only [List.getElem_map, List.getElem_range, mkFrame]
  have hlen2 : 2 ≤ (getSortedKeyframes exampleTrajectory).length := by decide
  have hfps : (0 : ℤ) < 30 := by norm_num
  have htf : max 1 (roundToInt (getTrajectoryDuration exampleTrajectory * ((30 : ℤ) : ℚ)))
      = 150 := by
    rw [exampleTrajectory_duration]
    have h1 : roundToInt (5 * ((30 : ℤ) : ℚ)) = 150 := by
      unfold roundToInt
      rw [Int.floor_eq_iff]
      constructor <;> push_cast <;> norm_num
    rw [h1]
    norm_num
  obtain ⟨hL, hT⟩ := hgen exampleTrajectory 30 hlen2 hfps
  have hlen150 : (generateFrameData (some exampleTrajectory) 30).length = 150 := by
    rw [hL, htf]; rfl
  refine ⟨hgen, hlen150, ?_, ?_⟩
  · have h0 : 0 < (generateFrameData (some exampleTrajectory) 30).length := by
      rw [hlen150]; norm_num
    rw [List.getElem?_eq_getElem h0]
    have hv := hT 0 h0
    rw [htf, exampleTrajectory_duration] at hv
    simp only [Option.map_some']
    rw [hv]
    norm_num
  · have h149 : 149 < (generateFrameData (some exampleTrajectory) 30).length := by
      rw [hlen150]; norm_num
    rw [List.getElem?_eq_getElem h149]
    have hv := hT 149 h149
    rw [htf, exampleTrajectory_duration] at hv
    simp only [Option.map_some']
    rw [hv]
    norm_num

/-- Witness for C2: the example trajectory at 30 FPS satisfies both
hypotheses of the general clause, which then gives the frame count. -/
theorem generateFrameData_spec_witness :
    (generateFrameData (some exampleTrajectory) 30).length
      = (max 1 (roundToInt (getTrajectoryDuration exampleTrajectory * 30))).toNat :=
  (generateFrameData_spec.1 exampleTrajectory 30 (by decide) (by norm_num)).1

/-- **C10.** `GenerateFrameData` returns the empty frame array for a null
trajectory reference and for any `FPS ≤ 0` (whatever the trajectory), so no
frame is ever emitted for a non-positive framerate and the frame-count and
delta-time computations only run under the `FPS > 0` guard. -/
theorem generateFrameData_guard :
    (∀ fps : ℤ, generateFrameData none fps = [])
    ∧ (∀ (traj : Trajectory) (fps : ℤ), fps ≤ 0 → generateFrameData (some traj) fps = []) := by
  constructor
  · intro fps; rfl
  · intro traj fps hfps
    simp [generateFrameData, hfps]

/-- Witness for C10: null trajectory at 30 FPS, and the example trajectory
(which has 3 keyframes) at FPS 0 and -5, all yield no frames. -/
theorem generateFrameData_guard_witness :
    generateFrameData none 30 = []
    ∧ generateFrameData (some exampleTrajectory) 0 = []
    ∧ generateFrameData (some exampleTrajectory) (-5) = [] :=
  ⟨generateFrameData_guard.1 30,
   generateFrameData_guard.2 exampleTrajectory 0 (by norm_num),
   generateFrameData_guard.2 exampleTrajectory (-5) (by norm_num)⟩

/-- The sequential-reassignment loop shared by
`ACDGTrajectory::AutoAssignKeyframeOrders` and
`OnKeyframeOrderManuallyChanged`: the keyframe at position `i` of the sorted
array receives `OrderInTrajectory = i`.  (Both claims C4 scopes concern
trajectories whose keyframe references are all valid, which is also what the
C++ sort requires, so these operations are modelled on lists of non-null
keyframes.) -/
def assignOrders : ℕ → List Keyframe → List Keyframe
  | _, [] => []
  | i, k :: rest => { k with orderInTrajectory := (i : ℤ) } :: assignOrders (i + 1) rest

/-- `ACDGTrajectory::AutoAssignKeyframeOrders`: sort by the current
`OrderInTrajectory`, then reassign orders sequentially. -/
def autoAssignKeyframeOrders (ks : List Keyframe) : List Keyframe :=
  assignOrders 0 (sortByOrder ks)

/-- The `SrcOrder` search in `OnKeyframeOrderManuallyChanged`: the first index
in `0 .. N-1` that no keyframe currently uses as its order (`-1`, here `none`,
when every such index is used). -/
def findMissingOrder (ks : List Keyframe) : Option ℕ :=
  (List.range ks.length).find?
    (fun i => ! ks.any (fun k => k.orderInTrajectory == (i : ℤ)))

/-- The conflict-exchange loop of `OnKeyframeOrderManuallyChanged`: the first
keyframe other than the changed one (position `changedIdx`) holding the target
order receives the missing source order.  `j` is the current position. -/
def swapFirstConflict (changedIdx : ℕ) (target src : ℤ) :
    ℕ → List Keyframe → List Keyframe
  | _, [] => []
  | j, k :: rest =>
    if j ≠ changedIdx ∧ k.orderInTrajectory = target then
      { k with orderInTrajectory := src } :: rest
    else k :: swapFirstConflict changedIdx target src (j + 1) rest

/-- `ACDGTrajectory::OnKeyframeOrderManuallyChanged`, with the changed
keyframe identified by its position in the `Keyframes` array (pointer identity
in C++): optionally exchange the conflicting keyframe's order for the missing
one, then sort by order and reassign orders sequentially. -/
def onKeyframeOrderManuallyChanged (ks : List Keyframe) (changedIdx : ℕ) :
    List Keyframe :=
  let ks1 :=
    match ks[changedIdx]? with
    | none => ks
    | some changed =>
      match findMissingOrder ks with
      | none => ks
      | some src => swapFirstConflict changedIdx changed.orderInTrajectory (src : ℤ) 0 ks
  assignOrders 0 (sortByOrder ks1)

lemma length_insertByOrder (k : Keyframe) (l : List Keyframe) :
    (insertByOrder k l).length = l.length + 1 := by
  induction l with
  | nil => rfl
  | cons x xs ih =>
      unfold insertByOrder
      by_cases h : k.orderInTrajectory < x.orderInTrajectory
      · simp [h]
      · simp [h, ih]

lemma length_sortByOrder (l : List Keyframe) :
    (sortByOrder l).length = l.length := by
  induction l with
  | nil => rfl
  | cons k rest ih => simp [sortByOrder, length_insertByOrder, ih]

lemma length_swapFirstConflict (changedIdx : ℕ) (target src : ℤ)
    (l : List Keyframe) : ∀ j, (swapFirstConflict changedIdx target src j l).length
      = l.length := by
  induction l with
  | nil => intro j; rfl
  | cons k rest ih =>
      intro j
      unfold swapFirstConflict
      by_cases h : j ≠ changedIdx ∧ k.orderInTrajectory = target
      · simp [h]
      · simp [h, ih (j + 1)]

lemma assignOrders_map_order (l : List Keyframe) :
    ∀ i, (assignOrders i l).map (fun k => k.orderInTrajectory)
      = (List.range' i l.length).map Int.ofNat := by
  induction l with
  | nil => intro i; rfl
  | cons k rest ih =>
      intro i
      simp only [assignOrders, List.map_cons, List.length_cons, List.range'_succ]
      rw [ih (i + 1)]
      rfl

lemma assignOrders_sort_map_order (l : List Keyframe) :
    (assignOrders 0 (sortByOrder l)).map (fun k => k.orderInTrajectory)
      = (List.range l.length).map Int.ofNat := by
  rw [assignOrders_map_order, length_sortByOrder, List.range_eq_range']

/-- **C4.** After `AutoAssignKeyframeOrders()` — or after
`OnKeyframeOrderManuallyChanged` for any changed keyframe position and any
prior `OrderInTrajectory` assignment — the multiset of `OrderInTrajectory`
values over the trajectory's N (all-valid) keyframes is exactly
`{0, 1, ..., N-1}`. -/
theorem keyframeOrders_invariant :
    (∀ ks : List Keyframe,
        Multiset.ofList ((autoAssignKeyframeOrders ks).map (fun k => k.orderInTrajectory))
          = Multiset.ofList ((List.range ks.length).map Int.ofNat))
    ∧ (∀ (ks : List Keyframe) (changedIdx : ℕ),
        Multiset.ofList
            ((onKeyframeOrderManuallyChanged ks changedIdx).map
              (fun k => k.orderInTrajectory))
          = Multiset.ofList ((List.range ks.length).map Int.ofNat)) := by
  constructor
  · intro ks
    unfold autoAssignKeyframeOrders
    rw [assignOrders_sort_map_order]
  · intro ks changedIdx
    unfold onKeyframeOrderManuallyChanged
    have hlen : ∀ ks1 : List Keyframe,
        ks1.length = ks.length →
        Multiset.ofList ((assignOrders 0 (sortByOrder ks1)).map
            (fun k => k.orderInTrajectory))
          = Multiset.ofList ((List.range ks.length).map Int.ofNat) := by
      intro ks1 h
      rw [assignOrders_sort_map_order, h]
    cases hidx : ks[changedIdx]? with
    | none => exact hlen ks rfl
    | some changed =>
        cases hmiss : findMissingOrder ks with
        | none => exact hlen ks rfl
        | some src =>
            exact hlen _ (length_swapFirstConflict _ _ _ ks 0)

/-- `FMath::RadiansToDegrees`. -/
noncomputable def radToDeg (r : ℝ) : ℝ := r * (180 / Real.pi)

/-- `FMath::DegreesToRadians`. -/
noncomputable def degToRad (d : ℝ) : ℝ := d * (Real.pi / 180)

/-- `ACDGKeyframe::CalculateFOVFromFocalLength`, as a function of
`FilmbackSettings.SensorWidth` and `LensSettings.FocalLength`:
`degrees(2 * atan(SensorWidth / (2 * FocalLength)))` when both are positive,
else the default FOV of 90°. -/
noncomputable def calculateFOVFromFocalLength (sensorWidth focalLength : ℝ) : ℝ :=
  if focalLength > 0 ∧ sensorWidth > 0 then
    radToDeg (2 * Real.arctan (sensorWidth / (2 * focalLength)))
  else 90

/-- `ACDGKeyframe::CalculateFocalLengthFromFOV`, as a function of
`FilmbackSettings.SensorWidth` and `LensSettings.FieldOfView`:
`SensorWidth / (2 * tan(radians(FOV) / 2))` when both are positive, else the
default focal length of 35mm. -/
noncomputable def calculateFocalLengthFromFOV (sensorWidth fov : ℝ) : ℝ :=
  if fov > 0 ∧ sensorWidth > 0 then
    sensorWidth / (2 * Real.tan (degToRad fov / 2))
  else 35

/-- **C5.** For `SensorWidth > 0` and `FocalLength > 0`,
`CalculateFOVFromFocalLength` returns
`degrees(2 * atan(SensorWidth / (2 * FocalLength)))`, composing it with
`CalculateFocalLengthFromFOV` recovers the original focal length exactly (the
real-arithmetic model of "within floating-point tolerance"), and outside the
preconditions the functions return the defaults 90° and 35mm. -/
theorem fov_focalLength_roundtrip (sw fl : ℝ) (hsw : 0 < sw) (hfl : 0 < fl) :
    calculateFOVFromFocalLength sw fl
        = radToDeg (2 * Real.arctan (sw / (2 * fl)))
    ∧ calculateFocalLengthFromFOV sw (calculateFOVFromFocalLength sw fl) = fl
    ∧ (∀ sw2 fl2 : ℝ, ¬ (fl2 > 0 ∧ sw2 > 0) →
        calculateFOVFromFocalLength sw2 fl2 = 90)
    ∧ (∀ sw2 fov2 : ℝ, ¬ (fov2 > 0 ∧ sw2 > 0) →
        calculateFocalLengthFromFOV sw2 fov2 = 35) := by
  have hx : 0 < sw / (2 * fl) := by positivity
  have harct : 0 < Real.arctan (sw / (2 * fl)) := by
    rw [← Real.arctan_zero]
    exact Real.arctan_strictMono hx
  have hfov : calculateFOVFromFocalLength sw fl
      = radToDeg (2 * Real.arctan (sw / (2 * fl))) := by
    unfold calculateFOVFromFocalLength
    exact if_pos ⟨hfl, hsw⟩
  have hfovpos : 0 < radToDeg (2 * Real.arctan (sw / (2 * fl))) := by
    unfold radToDeg
    have h180pi : 0 < (180 : ℝ) / Real.pi := by
      apply div_pos (by norm_num) Real.pi_pos
    exact mul_pos (by linarith) h180pi
  refine ⟨hfov, ?_, ?_, ?_⟩
  · rw [hfov]
    unfold calculateFocalLengthFromFOV
    rw [if_pos ⟨hfovpos, hsw⟩]
    have hback : degToRad (radToDeg (2 * Real.arctan (sw / (2 * fl)))) / 2
        = Real.arctan (sw / (2 * fl)) := by
      unfold degToRad radToDeg
      have hpi : Real.pi ≠ 0 := Real.pi_ne_zero
      field_simp
    rw [hback, Real.tan_arctan]
    have hsw' : sw ≠ 0 := ne_of_gt hsw
    have hfl' : fl ≠ 0 := ne_of_gt hfl
    field_simp
    ring
  · intro sw2 fl2 h
    unfold calculateFOVFromFocalLength
    exact if_neg h
  · intro sw2 fov2 h
    unfold calculateFocalLengthFromFOV
    exact if_neg h

/-- Witness for C5: the round-trip at `SensorWidth = 24.89`mm for each of the
spec's focal lengths 10, 35, 85 and 200mm. -/
theorem fov_focalLength_roundtrip_witness :
    calculateFocalLengthFromFOV (2489/100) (calculateFOVFromFocalLength (2489/100) 10) = 10
    ∧ calculateFocalLengthFromFOV (2489/100) (calculateFOVFromFocalLength (2489/100) 35) = 35
    ∧ calculateFocalLengthFromFOV (2489/100) (calculateFOVFromFocalLength (2489/100) 85) = 85
    ∧ calculateFocalLengthFromFOV (2489/100) (calculateFOVFromFocalLength (2489/100) 200)
        = 200 :=
  ⟨(fov_focalLength_roundtrip (2489/100) 10 (by norm_num) (by norm_num)).2.1,
   (fov_focalLength_roundtrip (2489/100) 35 (by norm_num) (by norm_num)).2.1,
   (fov_focalLength_roundtrip (2489/100) 85 (by norm_num) (by norm_num)).2.1,
   (fov_focalLength_roundtrip (2489/100) 200 (by norm_num) (by norm_num)).2.1⟩

/-- The name-keyed trajectory registry of `UCDGTrajectorySubsystem`
(`TMap<FName, TObjectPtr<ACDGTrajectory>>`): an association list from
trajectory names to actor identities, names unique.  An empty string models
`FName` `None`; trajectory actors are identified by a numeric id (pointer
identity). -/
structure RegistryState where
  entries : List (String × ℕ)
  deriving Repr, DecidableEq

/-- `TMap::Contains`. -/
def containsName (s : RegistryState) (n : String) : Bool :=
  s.entries.any (fun p => p.1 == n)

/-- `TMap` lookup (`Trajectories[Name]`). -/
def lookupName (s : RegistryState) (n : String) : Option ℕ :=
  (s.entries.find? (fun p => p.1 == n)).map (fun p => p.2)

/-- `TMap::Add`: replace the value under an existing key, else append. -/
def mapAdd (l : List (String × ℕ)) (k : String) (v : ℕ) : List (String × ℕ) :=
  if l.any (fun p => p.1 == k) then
    l.map (fun p => if p.1 == k then (k, v) else p)
  else l ++ [(k, v)]

/-- The renaming loop of `UCDGTrajectorySubsystem::RegisterTrajectory`: try
`base_1`, `base_2`, … until a name not in the registry is found.  The C++
while-loop terminates because the registry is finite; the model carries fuel
(one more than the registry size always suffices). -/
def uniquifyName (s : RegistryState) (base : String) : ℕ → ℕ → String
  | 0, suffix => base ++ "_" ++ toString suffix
  | fuel + 1, suffix =>
    let candidate := base ++ "_" ++ toString suffix
    if containsName s candidate then uniquifyName s base fuel (suffix + 1)
    else candidate

/-- `UCDGTrajectorySubsystem::RegisterTrajectory`, restricted to its
name-registry behaviour: no-op for a null-named trajectory; no-op when the
same actor is already registered under the name; rename with an incrementing
`_1, _2, …` suffix when a *different* actor holds the name; then insert.
Returns the new registry and the trajectory's (possibly renamed) name.
(Color-palette assignment and visualizer refreshes touch no registry state
and are outside the claims.) -/
def registerTrajectory (s : RegistryState) (actorId : ℕ) (name : String) :
    RegistryState × String :=
  if name = "" then (s, name)
  else
    match lookupName s name with
    | some existing =>
      if existing = actorId then (s, name)
      else
        let unique := uniquifyName s name (s.entries.length + 1) 1
        (⟨mapAdd s.entries unique actorId⟩, unique)
    | none => (⟨mapAdd s.entries name actorId⟩, name)

lemma lookupName_mapAdd_self (l : List (String × ℕ)) (k : String) (v : ℕ) :
    lookupName ⟨mapAdd l k v⟩ k = some v := by
  unfold lookupName mapAdd
  by_cases h : l.any (fun p => p.1 == k)
  · rw [if_pos h]
    induction l with
    | nil => simp at h
    | cons p rest ih =>
        by_cases hp : p.1 == k
        · simp [List.find?, hp]
        · have hrest : rest.any (fun p => p.1 == k) := by
            simp only [List.any_cons, hp, Bool.false_or] at h
            exact h
          simp only [List.map_cons, hp, if_neg, Bool.false_eq_true, reduceIte]
          rw [List.find?]
          simp only [hp]
          exact ih hrest
  · rw [if_neg h]
    induction l with
    | nil => simp [List.find?]
    | cons p rest ih =>
        have hp : ¬ (p.1 == k) := by
          intro hcon
          exact h (by simp [List.any_cons, hcon])
        have hrest : ¬ rest.any (fun p => p.1 == k) := by
          intro hcon
          exact h (by simp [List.any_cons, hcon])
        rw [List.cons_append, List.find?]
        simp only [hp, Bool.false_eq_true, reduceIte]
        exact ih hrest

lemma lookupName_mapAdd_other (l : List (String × ℕ)) (k k' : String) (v : ℕ)
    (hne : k' ≠ k) : lookupName ⟨mapAdd l k v⟩ k' = lookupName ⟨l⟩ k' := by
  unfold lookupName mapAdd
  by_cases h : l.any (fun p => p.1 == k)
  · rw [if_pos h]
    clear h
    induction l with
    | nil => rfl
    | cons p rest ih =>
        by_cases hp : p.1 == k
        · have hp' : ¬ ((k : String) == k') := by
            simp only [beq_iff_eq]
            exact fun hcon => hne hcon.symm
          have hpk : ¬ (p.1 == k') := by
            simp only [beq_iff_eq] at hp ⊢
            rw [hp]
            exact fun hcon => hne hcon.symm
          simp only [List.map_cons, hp, reduceIte, List.find?, hp', hpk,
            Bool.false_eq_true]
          exact ih
        · simp only [List.map_cons, hp, Bool.false_eq_true, reduceIte, List.find?]
          by_cases hpq : p.1 == k'
          · simp [hpq]
          · simp only [hpq, Bool.false_eq_true, reduceIte]
            exact ih
  · rw [if_neg h]
    clear h
    induction l with
    | nil =>
        simp only [List.nil_append, List.find?]
        have : ¬ ((k : String) == k') := by
          simp only [beq_iff_eq]
          exact fun hcon => hne hcon.symm
        simp [this, List.find?]
    | cons p rest ih =>
        rw [List.cons_append, List.find?, List.find?]
        by_cases hpq : p.1 == k'
        · simp [hpq]
        · simp only [hpq, Bool.false_eq_true, reduceIte]
          exact ih

lemma containsName_iff_lookup (s : RegistryState) (n : String) :
    containsName s n = true ↔ (lookupName s n).isSome := by
  unfold containsName lookupName
  induction s.entries with
  | nil => simp [List.find?]
  | cons p rest ih =>
      by_cases hp : p.1 == n
      · simp [List.any_cons, hp, List.find?]
      · simp only [List.any_cons, hp, Bool.false_or, List.find?, Bool.false_eq_true,
          reduceIte]
        exact ih

lemma lookupName_eq_none_of_not_contains (s : RegistryState) (n : String)
    (h : containsName s n = false) : lookupName s n = none := by
  cases hl : lookupName s n with
  | none => rfl
  | some v =>
      exfalso
      have hsome : (lookupName s n).isSome := by rw [hl]; rfl
      have hc := (containsName_iff_lookup s n).mpr hsome
      rw [h] at hc
      exact Bool.false_ne_true hc

lemma append_suffix_ne (base suffix : String) (h : 0 < suffix.length) :
    base ++ suffix ≠ base := by
  intro hcon
  have hlen : (base ++ suffix).length = base.length := by rw [hcon]
  rw [String.length_append] at hlen
  omega

/-- **C6.** Registering two distinct trajectory actors that both carry the
same non-empty name: the first keeps the name; the second is renamed to
`name_1` (the first free suffixed candidate) when `name_1` is not yet
registered; afterwards both actors are retrievable under their now-distinct
names; and re-registering the already-registered actor under its name leaves
the registry unchanged. -/
theorem registerTrajectory_collision (s0 : RegistryState) (a b : ℕ)
    (name : String) (hname : name ≠ "") (hab : a ≠ b)
    (h0 : containsName s0 name = false)
    (h1 : containsName s0 (name ++ "_1") = false) :
    (registerTrajectory s0 a name).2 = name
    ∧ (registerTrajectory (registerTrajectory s0 a name).1 b name).2 = name ++ "_1"
    ∧ lookupName (registerTrajectory (registerTrajectory s0 a name).1 b name).1 name
        = some a
    ∧ lookupName (registerTrajectory (registerTrajectory s0 a name).1 b name).1
        (name ++ "_1") = some b
    ∧ registerTrajectory (registerTrajectory s0 a name).1 a name
        = ((registerTrajectory s0 a name).1, name) := by
  have hlook0 : lookupName s0 name = none :=
    lookupName_eq_none_of_not_contains s0 name h0
  have hr1 : registerTrajectory s0 a name = (⟨mapAdd s0.entries name a⟩, name) := by
    unfold registerTrajectory
    rw [if_neg hname, hlook0]
  set s1 : RegistryState := ⟨mapAdd s0.entries name a⟩ with hs1
  have hlook1 : lookupName s1 name = some a := lookupName_mapAdd_self s0.entries name a
  have hne1 : name ++ "_1" ≠ name := append_suffix_ne name "_1" (by decide)
  have hlook1' : lookupName s1 (name ++ "_1") = none := by
    rw [hs1, lookupName_mapAdd_other s0.entries name (name ++ "_1") a hne1]
    have hs0eta : (⟨s0.entries⟩ : RegistryState) = s0 := rfl
    rw [hs0eta]
    exact lookupName_eq_none_of_not_contains s0 (name ++ "_1") h1
  have hcont1' : containsName s1 (name ++ "_1") = false := by
    cases hc : containsName s1 (name ++ "_1") with
    | false => rfl
    | true =>
        exfalso
        have := (containsName_iff_lookup s1 (name ++ "_1")).mp hc
        rw [hlook1'] at this
        exact Bool.false_ne_true this.symm.symm
  have hcand : name ++ "_" ++ toString (1 : ℕ) = name ++ "_1" := by
    rw [String.append_assoc]
    rw [show ("_" ++ toString (1 : ℕ) : String) = "_1" from rfl]
  have huniq : uniquifyName s1 name (s1.entries.length + 1) 1 = name ++ "_1" := by
    unfold uniquifyName
    simp only [hcand, hcont1']
    simp
  have hr2 : registerTrajectory s1 b name
      = (⟨mapAdd s1.entries (name ++ "_1") b⟩, name ++ "_1") := by
    unfold registerTrajectory
    rw [if_neg hname]
    simp only [hlook1, huniq]
    simp [hab]
  have hr3 : registerTrajectory s1 a name = (s1, name) := by
    unfold registerTrajectory
    rw [if_neg hname]
    simp only [hlook1]
    simp
  refine ⟨by rw [hr1], ?_, ?_, ?_, ?_⟩
  · rw [hr1, hr2]
  · rw [hr1, hr2]
    have := lookupName_mapAdd_other s1.entries (name ++ "_1") name b
      (fun hcon => hne1 hcon.symm)
    rw [this]
    exact hlook1
  · rw [hr1, hr2]
    exact lookupName_mapAdd_self s1.entries (name ++ "_1") b
  · rw [hr1, hr3]

/-- Witness for C6: actors `0` and `1` both named `"Foo"` registered into the
empty registry; the second becomes `"Foo_1"` and both stay retrievable. -/
theorem registerTrajectory_collision_witness :
    (registerTrajectory ⟨[]⟩ 0 "Foo").2 = "Foo"
    ∧ (registerTrajectory (registerTrajectory ⟨[]⟩ 0 "Foo").1 1 "Foo").2 = "Foo_1"
    ∧ lookupName (registerTrajectory (registerTrajectory ⟨[]⟩ 0 "Foo").1 1 "Foo").1 "Foo"
        = some 0
    ∧ lookupName (registerTrajectory (registerTrajectory ⟨[]⟩ 0 "Foo").1 1 "Foo").1 "Foo_1"
        = some 1
    ∧ registerTrajectory (registerTrajectory ⟨[]⟩ 0 "Foo").1 0 "Foo"
        = ((registerTrajectory ⟨[]⟩ 0 "Foo").1, "Foo") := by
  have h := registerTrajectory_collision ⟨[]⟩ 0 1 "Foo" (by decide) (by decide)
    (by decide) (by decide)
  exact h

/-- `ECDGEditorPreviewState`. -/
inductive PreviewState where
  | DISABLED
  | PREVIEW_CAMERA
  | PREVIEW_TRAJECTORY
  deriving Repr, DecidableEq

/-- The editor-state fields of `UCDGEditorState` that the preview transitions
touch: the current state and the previewed keyframe / trajectory references
(actor identities, `none` for null). -/
structure EditorState where
  currentState : PreviewState
  previewedKeyframe : Option ℕ
  previewedTrajectory : Option ℕ
  deriving Repr, DecidableEq

/-- `UCDGEditorState::EnterCameraPreview`.  Rejects a null keyframe, rejects
any state other than `DISABLED`, and can also fail when caching the viewport
settings or applying the keyframe camera fails (`cacheOk` / `applyOk` model
those environment-dependent editor-viewport outcomes); every failure leaves
the state and previewed references unchanged.  On success the state becomes
`PREVIEW_CAMERA` with the keyframe recorded. -/
def enterCameraPreview (s : EditorState) (keyframe : Option ℕ)
    (cacheOk applyOk : Bool) : Bool × EditorState :=
  match keyframe with
  | none => (false, s)
  | some k =>
    if s.currentState ≠ PreviewState.DISABLED then (false, s)
    else if !cacheOk then (false, s)
    else if !applyOk then (false, s)
    else (true, { s with currentState := PreviewState.PREVIEW_CAMERA,
                         previewedKeyframe := some k })

/-- `UCDGEditorState::ExitPreview`: fails (no change) in `DISABLED`;
otherwise returns to `DISABLED` clearing both previewed references. -/
def exitPreview (s : EditorState) : Bool × EditorState :=
  if s.currentState = PreviewState.DISABLED then (false, s)
  else (true, { s with currentState := PreviewState.DISABLED,
                       previewedKeyframe := none,
                       previewedTrajectory := none })

/-- **C7.** `EnterCameraPreview` returns false and changes nothing for a null
keyframe or when the state is `PREVIEW_CAMERA` or `PREVIEW_TRAJECTORY`;
`ExitPreview` returns false and changes nothing in `DISABLED`; and any
successful `EnterCameraPreview` followed by `ExitPreview` ends in `DISABLED`
with both previewed references cleared. -/
theorem previewStateMachine_spec :
    (∀ (s : EditorState) (cacheOk applyOk : Bool),
        enterCameraPreview s none cacheOk applyOk = (false, s))
    ∧ (∀ (s : EditorState) (keyframe : Option ℕ) (cacheOk applyOk : Bool),
        s.currentState = PreviewState.PREVIEW_CAMERA
          ∨ s.currentState = PreviewState.PREVIEW_TRAJECTORY →
        enterCameraPreview s keyframe cacheOk applyOk = (false, s))
    ∧ (∀ s : EditorState, s.currentState = PreviewState.DISABLED →
        exitPreview s = (false, s))
    ∧ (∀ (s : EditorState) (keyframe : Option ℕ) (cacheOk applyOk : Bool),
        (enterCameraPreview s keyframe cacheOk applyOk).1 = true →
        (exitPreview (enterCameraPreview s keyframe cacheOk applyOk).2).2.currentState
            = PreviewState.DISABLED
        ∧ (exitPreview (enterCameraPreview s keyframe cacheOk applyOk).2).2.previewedKeyframe
            = none
        ∧ (exitPreview
              (enterCameraPreview s keyframe cacheOk applyOk).2).2.previewedTrajectory
            = none) := by
  refine ⟨?_, ?_, ?_, ?_⟩
  · intro s cacheOk applyOk
    rfl
  · intro s keyframe cacheOk applyOk h
    have hne : s.currentState ≠ PreviewState.DISABLED := by
      rcases h with h | h <;> rw [h] <;> intro hcon <;> exact PreviewState.noConfusion hcon
    cases keyframe with
    | none => rfl
    | some k =>
        simp only [enterCameraPreview]
        rw [if_pos hne]
  · intro s h
    unfold exitPreview
    rw [if_pos h]
  · intro s keyframe cacheOk applyOk hsucc
    cases keyframe with
    | none => simp [enterCameraPreview] at hsucc
    | some k =>
        simp only [enterCameraPreview] at hsucc ⊢
        by_cases h1 : s.currentState ≠ PreviewState.DISABLED
        · rw [if_pos h1] at hsucc; simp at hsucc
        · rw [if_neg h1] at hsucc ⊢
          cases cacheOk with
          | false => simp at hsucc
          | true =>
              cases applyOk with
              | false => simp at hsucc
              | true =>
                  simp only [Bool.not_true, Bool.false_eq_true, reduceIte]
                  simp [exitPreview]

/-- Witness for C7: a concrete run — entering from `DISABLED` with keyframe 7
succeeds and exiting lands back in `DISABLED` with cleared references; the
rejections fire in `PREVIEW_CAMERA` and in `DISABLED` respectively. -/
theorem previewStateMachine_spec_witness :
    enterCameraPreview ⟨PreviewState.PREVIEW_CAMERA, some 7, none⟩ (some 3) true true
        = (false, ⟨PreviewState.PREVIEW_CAMERA, some 7, none⟩)
    ∧ exitPreview ⟨PreviewState.DISABLED, none, none⟩
        = (false, ⟨PreviewState.DISABLED, none, none⟩)
    ∧ (exitPreview
          (enterCameraPreview ⟨PreviewState.DISABLED, none, none⟩ (some 7) true
            true).2).2.currentState = PreviewState.DISABLED :=
  ⟨previewStateMachine_spec.2.1 ⟨PreviewState.PREVIEW_CAMERA, some 7, none⟩ (some 3)
      true true (Or.inl rfl),
   previewStateMachine_spec.2.2.1 ⟨PreviewState.DISABLED, none, none⟩ rfl,
   (previewStateMachine_spec.2.2.2 ⟨PreviewState.DISABLED, none, none⟩ (some 7) true
      true (by decide)).1⟩

/-- `ECDGRenderOutputFormat`. -/
inductive RenderFormat where
  | BMP_Sequence
  | EXR_Sequence
  | PNG_Sequence
  | WAV_Audio
  | H264_Video
  | CommandLineEncoder
  | FinalCutProXML
  deriving Repr, DecidableEq

/-- `CDGMRQInterface::Internal::IsVideoFormat`. -/
def isVideoFormat (f : RenderFormat) : Bool :=
  f == RenderFormat.H264_Video || f == RenderFormat.CommandLineEncoder

/-- The `UMoviePipeline*` setting classes that `ConfigureMoviePipelineJob`
adds to the pipeline configuration via `FindOrAddSettingByClass`. -/
inductive SettingClass where
  | OutputSetting
  | AntiAliasingSetting
  | ImageSequencePNG
  | ImageSequenceEXR
  | ImageSequenceBMP
  | CommandLineEncoderSetting
  | DeferredPass
  | HighResSetting
  deriving Repr, DecidableEq

/-- `UMoviePipelinePrimaryConfig::FindOrAddSettingByClass`: keep the existing
setting, or append one of the class. -/
def findOrAdd (cfg : List SettingClass) (c : SettingClass) : List SettingClass :=
  if c ∈ cfg then cfg else cfg ++ [c]

/-- The four install paths probed by
`CDGMRQInterface::Internal::EnsureFFmpegAvailable`, in probe order. -/
def ffmpegPossiblePaths : List String :=
  [ "Engine/Binaries/ThirdParty/FFmpeg/Win64/bin/ffmpeg.exe"
  , "Engine/Binaries/ThirdParty/FFmpeg/Win64/ffmpeg.exe"
  , "Project/Binaries/ThirdParty/FFmpeg/Win64/bin/ffmpeg.exe"
  , "Project/Binaries/Win64/ffmpeg.exe" ]

/-- `EnsureFFmpegAvailable`, over the set of files that exist on disk: the
first probed path that exists, if any.  (The source's automatic-download
fallback unconditionally returns `false` after logging, so absence from all
four paths means unavailable.) -/
def ensureFFmpegAvailable (existingFiles : List String) : Option String :=
  ffmpegPossiblePaths.find? (fun p => existingFiles.contains p)

/-- The image-sequence output class chosen by the non-video branch of
`ConfigureMoviePipelineJob` (`exrFound` / `bmpFound` model whether
`FindObject` locates the EXR / BMP classes; on failure it falls back to
PNG, as does the `default` arm). -/
def imageOutputClass (format : RenderFormat) (exrFound bmpFound : Bool) :
    SettingClass :=
  match format with
  | RenderFormat.PNG_Sequence => SettingClass.ImageSequencePNG
  | RenderFormat.EXR_Sequence =>
      if exrFound then SettingClass.ImageSequenceEXR else SettingClass.ImageSequencePNG
  | RenderFormat.BMP_Sequence =>
      if bmpFound then SettingClass.ImageSequenceBMP else SettingClass.ImageSequencePNG
  | _ => SettingClass.ImageSequencePNG

/-- `CDGMRQInterface::Internal::ConfigureMoviePipelineJob`, restricted to its
setting-class effects on the pipeline configuration: `none` models returning
`false` (null job or trajectory); otherwise output and anti-aliasing settings
are ensured, then for a video format a PNG image-sequence output is always
ensured and a command-line-encoder setting is ensured only for `H264_Video`
with the encoder executable found, for a non-video format the per-format
image output is ensured; finally deferred-pass and high-resolution settings
are ensured and the call reports success. -/
def configureMoviePipelineJob (jobValid trajValid : Bool) (format : RenderFormat)
    (existingFiles : List String) (exrFound bmpFound : Bool)
    (cfg0 : List SettingClass) : Option (List SettingClass) :=
  if !jobValid || !trajValid then none
  else
    let cfg1 := findOrAdd cfg0 SettingClass.OutputSetting
    let cfg2 := findOrAdd cfg1 SettingClass.AntiAliasingSetting
    let cfg3 :=
      if isVideoFormat format then
        let ffmpeg := ensureFFmpegAvailable existingFiles
        let cfgPng := findOrAdd cfg2 SettingClass.ImageSequencePNG
        if format == RenderFormat.H264_Video && ffmpeg.isSome then
          findOrAdd cfgPng SettingClass.CommandLineEncoderSetting
        else cfgPng
      else findOrAdd cfg2 (imageOutputClass format exrFound bmpFound)
    let cfg4 := findOrAdd cfg3 SettingClass.DeferredPass
    some (findOrAdd cfg4 SettingClass.HighResSetting)

lemma mem_findOrAdd_self (cfg : List SettingClass) (c : SettingClass) :
    c ∈ findOrAdd cfg c := by
  unfold findOrAdd
  by_cases h : c ∈ cfg
  · rw [if_pos h]
    exact h
  · rw [if_neg h]
    simp

lemma mem_findOrAdd_of_mem (cfg : List SettingClass) (a c : SettingClass)
    (h : a ∈ cfg) : a ∈ findOrAdd cfg c := by
  unfold findOrAdd
  by_cases hc : c ∈ cfg
  · rw [if_pos hc]; exact h
  · rw [if_neg hc]; exact List.mem_append_left _ h

lemma not_mem_findOrAdd (cfg : List SettingClass) (a c : SettingClass)
    (ha : a ∉ cfg) (hne : a ≠ c) : a ∉ findOrAdd cfg c := by
  unfold findOrAdd
  by_cases hc : c ∈ cfg
  · rw [if_pos hc]; exact ha
  · rw [if_neg hc]
    intro hcon
    rcases List.mem_append.mp hcon with h | h
    · exact ha h
    · simp only [List.mem_singleton] at h
      exact hne h

/-- **C8.** With the encoder executable absent from all four probed install
paths, configuring a job for the H.264 video format still succeeds, still
ensures a PNG image-sequence output setting, and adds no command-line-encoder
setting; the encoder setting is added exactly when the executable is found at
one of the probed paths. -/
theorem configureMoviePipelineJob_encoder_gating :
    (∀ (existingFiles : List String) (cfg0 : List SettingClass)
        (exrFound bmpFound : Bool),
      (∀ p ∈ ffmpegPossiblePaths, existingFiles.contains p = false) →
      ensureFFmpegAvailable existingFiles = none
      ∧ ∃ cfg, configureMoviePipelineJob true true RenderFormat.H264_Video
            existingFiles exrFound bmpFound cfg0 = some cfg
          ∧ SettingClass.ImageSequencePNG ∈ cfg
          ∧ (SettingClass.CommandLineEncoderSetting ∉ cfg0 →
              SettingClass.CommandLineEncoderSetting ∉ cfg))
    ∧ (∀ (existingFiles : List String) (cfg0 : List SettingClass)
        (exrFound bmpFound : Bool),
      (ensureFFmpegAvailable existingFiles).isSome →
      ∃ cfg, configureMoviePipelineJob true true RenderFormat.H264_Video
            existingFiles exrFound bmpFound cfg0 = some cfg
          ∧ SettingClass.CommandLineEncoderSetting ∈ cfg
          ∧ SettingClass.ImageSequencePNG ∈ cfg) := by
  constructor
  · intro existingFiles cfg0 exrFound bmpFound habsent
    have hens : ensureFFmpegAvailable existingFiles = none := by
      unfold ensureFFmpegAvailable
      rw [List.find?_eq_none]
      intro x hx
      rw [habsent x hx]
      simp
    have hcfg : configureMoviePipelineJob true true RenderFormat.H264_Video
        existingFiles exrFound bmpFound cfg0
        = some (findOrAdd (findOrAdd (findOrAdd (findOrAdd
            (findOrAdd cfg0 SettingClass.OutputSetting)
            SettingClass.AntiAliasingSetting)
            SettingClass.ImageSequencePNG)
            SettingClass.DeferredPass)
            SettingClass.HighResSetting) := by
      unfold configureMoviePipelineJob
      rw [hens]
      rfl
    refine ⟨hens, _, hcfg, ?_, ?_⟩
    · apply mem_findOrAdd_of_mem
      apply mem_findOrAdd_of_mem
      exact mem_findOrAdd_self _ _
    · intro h0
      apply not_mem_findOrAdd _ _ _ _ (by decide)
      apply not_mem_findOrAdd _ _ _ _ (by decide)
      apply not_mem_findOrAdd _ _ _ _ (by decide)
      apply not_mem_findOrAdd _ _ _ _ (by decide)
      apply not_mem_findOrAdd _ _ _ _ (by decide)
      exact h0
  · intro existingFiles cfg0 exrFound bmpFound hfound
    obtain ⟨path, hpath⟩ := Option.isSome_iff_exists.mp hfound
    have hcfg : configureMoviePipelineJob true true RenderFormat.H264_Video
        existingFiles exrFound bmpFound cfg0
        = some (findOrAdd (findOrAdd (findOrAdd (findOrAdd (findOrAdd
            (findOrAdd cfg0 SettingClass.OutputSetting)
            SettingClass.AntiAliasingSetting)
            SettingClass.ImageSequencePNG)
            SettingClass.CommandLineEncoderSetting)
            SettingClass.DeferredPass)
            SettingClass.HighResSetting) := by
      unfold configureMoviePipelineJob
      rw [hpath]
      rfl
    refine ⟨_, hcfg, ?_, ?_⟩
    · apply mem_findOrAdd_of_mem
      apply mem_findOrAdd_of_mem
      exact mem_findOrAdd_self _ _
    · apply mem_findOrAdd_of_mem
      apply mem_findOrAdd_of_mem
      apply mem_findOrAdd_of_mem
      exact mem_findOrAdd_self _ _

/-- Witness for C8: with no files on disk the H.264 job still configures with
a PNG output and no encoder setting; with the first probe path present the
encoder setting is added. -/
theorem configureMoviePipelineJob_encoder_gating_witness :
    (∃ cfg, configureMoviePipelineJob true true RenderFormat.H264_Video [] true true []
        = some cfg
      ∧ SettingClass.ImageSequencePNG ∈ cfg
      ∧ SettingClass.CommandLineEncoderSetting ∉ cfg)
    ∧ (∃ cfg, configureMoviePipelineJob true true RenderFormat.H264_Video
          ["Engine/Binaries/ThirdParty/FFmpeg/Win64/bin/ffmpeg.exe"] true true []
        = some cfg
      ∧ SettingClass.CommandLineEncoderSetting ∈ cfg) := by
  constructor
  · obtain ⟨-, cfg, hcfg, hpng, henc⟩ :=
      configureMoviePipelineJob_encoder_gating.1 [] [] true true (by decide)
    exact ⟨cfg, hcfg, hpng, henc (by simp)⟩
  · obtain ⟨cfg, hcfg, henc, -⟩ :=
      configureMoviePipelineJob_encoder_gating.2
        ["Engine/Binaries/ThirdParty/FFmpeg/Win64/bin/ffmpeg.exe"] [] true true (by decide)
    exact ⟨cfg, hcfg, henc⟩

/-- `FPaths::GetBaseFilename` on a bare filename: drop the last
dot-extension (helper on the reversed character list). -/
def dropExtAux : List Char → Option (List Char)
  | [] => none
  | c :: rest => if c = '.' then some rest else dropExtAux rest

/-- `FPaths::GetBaseFilename` (our MP4 names carry no directory part). -/
def getBaseFilename (s : String) : String :=
  match dropExtAux s.toList.reverse with
  | some rest => String.mk rest.reverse
  | none => s

/-- Whether a PNG filename matches the `FindFiles` wildcard pattern
`<basename>.*.png`: it is `basename ++ "." ++ mid ++ ".png"` for some
(possibly empty) `mid`, i.e. it starts with `basename ++ "."`, ends with
`".png"`, and is long enough that the two do not overlap. -/
def matchesFramePattern (base png : String) : Bool :=
  (base ++ ".").toList.isPrefixOf png.toList
  && ".png".toList.isSuffixOf png.toList
  && Nat.ble (base.length + 5) png.length

/-- The per-MP4 loop of
`CDGMRQInterface::Internal::ValidateAndCleanupVideoOutput`: skip files with
non-positive size, skip files smaller than the 1KB `MinValidSize`, and for
each remaining (valid) video delete every PNG matching its base-name frame
pattern, accumulating the number of deleted files.  State: the PNG files
still on disk and the running deletion count. -/
def cleanupLoop : List (String × ℤ) → List String → List String × ℕ
  | [], pngs => (pngs, 0)
  | (name, size) :: rest, pngs =>
    if size ≤ 0 then cleanupLoop rest pngs
    else if size < 1024 then cleanupLoop rest pngs
    else
      let base := getBaseFilename name
      let deleted := pngs.countP (fun p => matchesFramePattern base p)
      let remaining := pngs.filter (fun p => ! matchesFramePattern base p)
      let r := cleanupLoop rest remaining
      (r.1, deleted + r.2)

/-- `ValidateAndCleanupVideoOutput`, over the MP4 files (name and byte size)
and PNG files present in the `OUTPUTS` directory.  Returns the surviving PNG
files and the total cleanup count (the function's return value). -/
def validateAndCleanupVideoOutput (mp4s : List (String × ℤ)) (pngs : List String) :
    List String × ℕ :=
  cleanupLoop mp4s pngs

lemma cleanupLoop_subset (mp4s : List (String × ℤ)) :
    ∀ pngs : List String, (cleanupLoop mp4s pngs).1 ⊆ pngs := by
  induction mp4s with
  | nil => intro pngs; exact fun a h => h
  | cons m rest ih =>
      intro pngs
      obtain ⟨name, size⟩ := m
      unfold cleanupLoop
      by_cases h0 : size ≤ 0
      · rw [if_pos h0]; exact ih pngs
      · rw [if_neg h0]
        by_cases h1 : size < 1024
        · rw [if_pos h1]; exact ih pngs
        · rw [if_neg h1]
          intro a ha
          have := ih (pngs.filter
            (fun p => ! matchesFramePattern (getBaseFilename name) p)) ha
          exact List.mem_of_mem_filter this

lemma length_filter_add_length_filter_not {α : Type} (p : α → Bool) (l : List α) :
    (l.filter p).length + (l.filter (fun a => ! p a)).length = l.length := by
  induction l with
  | nil => rfl
  | cons a rest ih =>
      by_cases h : p a
      · simp [List.filter_cons, h, ih]
        omega
      · simp only [List.filter_cons]
        simp only [h, Bool.false_eq_true, reduceIte, Bool.not_false, if_true,
          List.length_cons]
        omega

lemma cleanupLoop_length_le (mp4s : List (String × ℤ)) :
    ∀ pngs : List String, (cleanupLoop mp4s pngs).1.length ≤ pngs.length := by
  induction mp4s with
  | nil => intro pngs; exact le_refl _
  | cons m rest ih =>
      intro pngs
      obtain ⟨name, size⟩ := m
      unfold cleanupLoop
      by_cases h0 : size ≤ 0
      · rw [if_pos h0]; exact ih pngs
      · rw [if_neg h0]
        by_cases h1 : size < 1024
        · rw [if_pos h1]; exact ih pngs
        · rw [if_neg h1]
          calc (cleanupLoop rest (pngs.filter
                  (fun p => ! matchesFramePattern (getBaseFilename name) p))).1.length
              ≤ (pngs.filter
                  (fun p => ! matchesFramePattern (getBaseFilename name) p)).length :=
                ih _
            _ ≤ pngs.length := List.length_filter_le _ _

lemma cleanupLoop_mem_iff (mp4s : List (String × ℤ)) :
    ∀ (pngs : List String) (png : String), png ∈ pngs →
      (png ∈ (cleanupLoop mp4s pngs).1
        ↔ ¬ ∃ m, m ∈ mp4s ∧ 1024 ≤ m.2
            ∧ matchesFramePattern (getBaseFilename m.1) png = true) := by
  induction mp4s with
  | nil =>
      intro pngs png hmem
      simp [cleanupLoop, hmem]
  | cons m rest ih =>
      intro pngs png hmem
      obtain ⟨name, size⟩ := m
      unfold cleanupLoop
      by_cases h0 : size ≤ 0
      · rw [if_pos h0]
        rw [ih pngs png hmem]
        constructor
        · intro h ⟨mm, hmm, hsz, hmatch⟩
          rcases List.mem_cons.mp hmm with rfl | hmm'
          · simp only at hsz
            omega
          · exact h ⟨mm, hmm', hsz, hmatch⟩
        · intro h ⟨mm, hmm, hsz, hmatch⟩
          exact h ⟨mm, List.mem_cons_of_mem _ hmm, hsz, hmatch⟩
      · rw [if_neg h0]
        by_cases h1 : size < 1024
        · rw [if_pos h1]
          rw [ih pngs png hmem]
          constructor
          · intro h ⟨mm, hmm, hsz, hmatch⟩
            rcases List.mem_cons.mp hmm with rfl | hmm'
            · simp only at hsz
              omega
            · exact h ⟨mm, hmm', hsz, hmatch⟩
          · intro h ⟨mm, hmm, hsz, hmatch⟩
            exact h ⟨mm, List.mem_cons_of_mem _ hmm, hsz, hmatch⟩
        · rw [if_neg h1]
          simp only []
          by_cases hm : matchesFramePattern (getBaseFilename name) png = true
          · have hnotrem : png ∉ pngs.filter
                (fun p => ! matchesFramePattern (getBaseFilename name) p) := by
              intro hcon
              have := List.of_mem_filter hcon
              rw [hm] at this
              exact Bool.false_ne_true this.symm.symm
            constructor
            · intro hcon
              exfalso
              exact hnotrem (cleanupLoop_subset rest _ hcon)
            · intro h
              exfalso
              exact h ⟨(name, size), List.mem_cons_self _ _, by omega, hm⟩
          · have hrem : png ∈ pngs.filter
                (fun p => ! matchesFramePattern (getBaseFilename name) p) := by
              apply List.mem_filter.mpr
              refine ⟨hmem, ?_⟩
              simp only [Bool.not_eq_true']
              exact Bool.not_eq_true _ |>.mp hm
            rw [ih _ png hrem]
            constructor
            · intro h ⟨mm, hmm, hsz, hmatch⟩
              rcases List.mem_cons.mp hmm with rfl | hmm'
              · exact hm hmatch
              · exact h ⟨mm, hmm', hsz, hmatch⟩
            · intro h ⟨mm, hmm, hsz, hmatch⟩
              exact h ⟨mm, List.mem_cons_of_mem _ hmm, hsz, hmatch⟩

lemma cleanupLoop_count (mp4s : List (String × ℤ)) :
    ∀ pngs : List String,
      (cleanupLoop mp4s pngs).2 = pngs.length - (cleanupLoop mp4s pngs).1.length := by
  induction mp4s with
  | nil => intro pngs; simp [cleanupLoop]
  | cons m rest ih =>
      intro pngs
      obtain ⟨name, size⟩ := m
      unfold cleanupLoop
      by_cases h0 : size ≤ 0
      · rw [if_pos h0]; exact ih pngs
      · rw [if_neg h0]
        by_cases h1 : size < 1024
        · rw [if_pos h1]; exact ih pngs
        · rw [if_neg h1]
          simp only []
          set base := getBaseFilename name
          set remaining := pngs.filter (fun p => ! matchesFramePattern base p) with hrem
          have hcount : pngs.countP (fun p => matchesFramePattern base p)
              = pngs.length - remaining.length := by
            rw [List.countP_eq_length_filter, hrem]
            have := length_filter_add_length_filter_not
              (fun p => matchesFramePattern base p) pngs
            omega
          rw [ih remaining, hcount]
          have hle1 : (cleanupLoop rest remaining).1.length ≤ remaining.length :=
            cleanupLoop_length_le rest remaining
          have hle2 : remaining.length ≤ pngs.length := List.length_filter_le _ _
          omega

/-- The spec's cleanup scenario: one 2048-byte `valid.mp4` with ten matching
frame PNGs, one zero-byte `corrupt.mp4` with five matching frame PNGs. -/
def exampleMp4s : List (String × ℤ) := [("valid.mp4", 2048), ("corrupt.mp4", 0)]

/-- The fifteen PNG frame files of the cleanup scenario. -/
def examplePngs : List String :=
  [ "valid.0001.png", "valid.0002.png", "valid.0003.png", "valid.0004.png"
  , "valid.0005.png", "valid.0006.png", "valid.0007.png", "valid.0008.png"
  , "valid.0009.png", "valid.0010.png"
  , "corrupt.0001.png", "corrupt.0002.png", "corrupt.0003.png"
  , "corrupt.0004.png", "corrupt.0005.png" ]

/-- **C9.** `ValidateAndCleanupVideoOutput` deletes exactly the PNG files
matching `<basename>.*.png` for some MP4 of size at least 1024 bytes (PNGs
whose only matching MP4s are smaller — or of non-positive size — survive),
and returns the total number of PNGs deleted; on the spec's scenario it
deletes the ten `valid.*.png` frames, leaves the five `corrupt.*.png`
frames, and returns 10. -/
theorem validateAndCleanupVideoOutput_spec :
    (∀ (mp4s : List (String × ℤ)) (pngs : List String) (png : String),
        png ∈ pngs →
        (png ∈ (validateAndCleanupVideoOutput mp4s pngs).1
          ↔ ¬ ∃ m, m ∈ mp4s ∧ 1024 ≤ m.2
              ∧ matchesFramePattern (getBaseFilename m.1) png = true))
    ∧ (∀ (mp4s : List (String × ℤ)) (pngs : List String),
        (validateAndCleanupVideoOutput mp4s pngs).2
          = pngs.length - (validateAndCleanupVideoOutput mp4s pngs).1.length)
    ∧ (validateAndCleanupVideoOutput exampleMp4s examplePngs).1
        = [ "corrupt.0001.png", "corrupt.0002.png", "corrupt.0003.png"
          , "corrupt.0004.png", "corrupt.0005.png" ]
    ∧ (validateAndCleanupVideoOutput exampleMp4s examplePngs).2 = 10 := by
  refine ⟨?_, ?_, ?_, ?_⟩
  · intro mp4s pngs png hmem
    exact cleanupLoop_mem_iff mp4s pngs png hmem
  · intro mp4s pngs
    exact cleanupLoop_count mp4s pngs
  · decide
  · decide

/-- Witness for C9: the first clause applied to a concrete surviving PNG of
the scenario — `corrupt.0001.png` is in the list and survives because no
MP4 of valid size matches it. -/
theorem validateAndCleanupVideoOutput_spec_witness :
    "corrupt.0001.png" ∈ (validateAndCleanupVideoOutput exampleMp4s examplePngs).1 :=
  (validateAndCleanupVideoOutput_spec.1 exampleMp4s examplePngs "corrupt.0001.png"
      (by decide)).mpr (by decide)

end CDG
